import Mathlib

/-!
Verification of the filesystem duplicate scanner (`src/main.rs`).

The development shallowly embeds the program's pure logical content:

* the chunked-MD5 hashing loop of `calculate_digest` (`md5Loop`, with the
  MD5 accumulator modelled by the list of bytes fed into it, since the real
  accumulator state — and hence the finalized hex digest — is a pure
  function of exactly those bytes; the finalize-and-hex-encode step is an
  arbitrary parameter `md5hex : List Nat → String`),
* the per-file task `digest_and_insert_path` (a `tokio::spawn`ed task whose
  panics are contained by the runtime and surface as a failed join handle),
* the retry recursion of `insert_file_record` (each attempt's success is
  determinized by a predicate `attemptOk : Nat → Bool` on the attempt index;
  the Rust code opens a fresh SQLite connection per call and either returns
  `()` or panics),
* the traversal loop of `walk_filesystem_hashing` (walkdir entries are either
  `Ok` entries, carrying path / directory flag / file name / byte source, or
  `Err` entries, which the loop logs and skips),
* the `walk` branch of `real_main` (schema creation, full walk, then a
  `select count(*)` report).
-/

/-- Outcome of one `f.by_ref().take(chunk_size).read_to_end(&mut chunk)` call
inside `calculate_digest`: either `Ok` with the bytes that were read, or an
I/O error (`.ok()` turned it into `None` in the source). -/
inductive ReadOutcome where
  | ok (chunk : List Nat)
  | err
deriving DecidableEq

/-- A file as seen by `calculate_digest`: either `File::open` fails, or it
succeeds and the successive chunked reads return the listed outcomes.  A
regular file at end of stream keeps answering `Ok` with zero bytes, which the
model renders by exhausting the list. -/
inductive FileSource where
  | openFailure
  | opened (reads : List ReadOutcome)
deriving DecidableEq

/-- The chunk size constant `let chunk_size = 0x4000;` of `calculate_digest`. -/
def chunk_size : Nat := 0x4000

/-- The hashing loop of `calculate_digest`.  The MD5 accumulator is modelled
as the list `fed` of all bytes fed into `md5.update` so far; the loop returns
the bytes over which the digest is finalized.  Mirroring the source: a read
returning `Ok(0)` finalizes without updating; otherwise the chunk is fed and
a short read (`n < chunk_size`) finalizes; a read error also finalizes the
accumulator as it stands (the source's `None => break md5.finalize()`). -/
def md5Loop (k : Nat) : List ReadOutcome → List Nat → List Nat
  | [], fed => fed
  | ReadOutcome.ok c :: rest, fed =>
      if c.length = 0 then fed
      else if c.length < k then fed ++ c
      else md5Loop k rest (fed ++ c)
  | ReadOutcome.err :: _, fed => fed

/-- `calculate_digest`: `None` on open failure, otherwise `Some` of the
hex-encoded digest of the bytes consumed by the loop.  `md5hex` stands for
`format!("{:x}", md5.finalize())` as a function of the fed bytes, and `k`
for the tunable chunk size. -/
def calculate_digest (md5hex : List Nat → String) (k : Nat) (src : FileSource) : Option String :=
  match src with
  | FileSource.openFailure => none
  | FileSource.opened reads => some (md5hex (md5Loop k reads []))

/-- The read outcomes produced by streaming a file whose full byte content is
`content` with chunk size `k+1`: `Read::take(n).read_to_end` on a regular
file fills exactly `min n remaining` bytes, so the successive reads are the
successive `(k+1)`-byte slices of the content.  The chunk size is written
`k+1` so that it is positive by construction. -/
def chunkReads (k : Nat) : List Nat → List ReadOutcome
  | [] => []
  | b :: rest =>
      ReadOutcome.ok ((b :: rest).take (k+1)) :: chunkReads k ((b :: rest).drop (k+1))
  termination_by l => l.length
  decreasing_by simp; omega

/-- The record type of the source (`struct FileRecord`): file name, file
path and hex digest string. -/
structure FileRecord where
  filename : String
  filepath : String
  hash : String
deriving DecidableEq

/-- Result of a call to `insert_file_record`.  The Rust function either
returns `()` after some attempt's `conn.execute` succeeds, or — once
`remaining_retries` reaches 0 with the attempt still failing — panics via
`panic(format!("Failed to insert {:?} into db", record))`.  Each constructor
carries the total number of `conn.execute` attempts issued, counted from the
start of the original call. -/
inductive InsertResult where
  | ok (attempts : Nat)
  | panicked (record : FileRecord) (attempts : Nat)
deriving DecidableEq

/-- `insert_file_record`: opens a fresh connection and attempts the INSERT;
on failure it recurses with `remaining_retries - 1`, and panics when the
retries are exhausted.  Success of the attempt with global index `idx` is
determinized by `attemptOk idx` (in the source it depends on the transient
state of the SQLite database, e.g. `SQLITE_BUSY` under contention).  The
`u8` counter never wraps because the source only subtracts under a
`remaining_retries > 0` guard, so `Nat` is a faithful carrier. -/
def insert_file_record (attemptOk : Nat → Bool) (record : FileRecord) :
    Nat → Nat → InsertResult
  | remaining_retries, idx =>
    if attemptOk idx then InsertResult.ok (idx + 1)
    else
      match remaining_retries with
      | r + 1 => insert_file_record attemptOk record r (idx + 1)
      | 0 => InsertResult.panicked record (idx + 1)

/-- Number of `conn.execute` attempts a call issued (final attempt index + 1). -/
def attemptCount : InsertResult → Nat
  | InsertResult.ok n => n
  | InsertResult.panicked _ n => n

/-- Observable outcome of one spawned `digest_and_insert_path` task.  A panic
(`Option::unwrap` on `None`, or the panic inside `insert_file_record`) is
caught by the tokio runtime and surfaces only as a failed join handle, so it
is an outcome of the task, not of the whole scan. -/
inductive TaskOutcome where
  | skippedDir
  | panickedUnwrap
  | insertedOk (record : FileRecord) (attempts : Nat)
  | panickedInsert (record : FileRecord)
deriving DecidableEq

/-- `digest_and_insert_path`: directories return early; otherwise the digest
is computed and `.unwrap()`ed — a `None` digest (open failure) panics the
task — and the record is handed to `insert_file_record` with 200 retries. -/
def digest_and_insert_path (md5hex : List Nat → String) (attemptOk : Nat → Bool)
    (isDir : Bool) (name path : String) (src : FileSource) : TaskOutcome :=
  if isDir then TaskOutcome.skippedDir
  else
    match calculate_digest md5hex chunk_size src with
    | none => TaskOutcome.panickedUnwrap
    | some h =>
      match insert_file_record attemptOk ⟨name, path, h⟩ 200 0 with
      | InsertResult.ok n => TaskOutcome.insertedOk ⟨name, path, h⟩ n
      | InsertResult.panicked r _ => TaskOutcome.panickedInsert r

/-- One `Ok` walkdir entry, together with the byte source its path will
expose when the task opens it, and the per-attempt success predicate of its
INSERT statements. -/
structure WalkEntry where
  path : String
  isDir : Bool
  name : String
  src : FileSource
  insertOk : Nat → Bool

/-- One entry yielded by the `WalkDir` iterator: `Ok(DirEntry)` or an error
(unreadable entry, or the root itself being unwalkable). -/
inductive Entry where
  | ok (e : WalkEntry)
  | err

/-- Containment of `pat` as a contiguous run inside `hay`. -/
def charsContain (hay pat : List Char) : Bool :=
  match hay with
  | [] => pat.isEmpty
  | _ :: rest => pat.isPrefixOf hay || charsContain rest pat

/-- Rust `str::contains(pat)`: substring containment.  For the ASCII
patterns used here, byte-level and character-level containment coincide
(UTF-8 continuation bytes cannot alias ASCII bytes). -/
def rustContains (s pat : String) : Bool :=
  charsContain s.data pat.data

/-- The denylist test of the walk loop:
`path_string.contains(".git") | path_string.contains("/target/") |
 path_string.contains(".idea/")` (Rust `|` on `bool` equals `||` in value). -/
def denylisted (path : String) : Bool :=
  rustContains path ".git" || rustContains path "/target/" || rustContains path ".idea/"

/-- Whether the walk loop spawns a task for an entry: `Err` entries and
denylisted paths are `continue`d, every other `Ok` entry is spawned. -/
def spawnDecision : Entry → Bool
  | Entry.err => false
  | Entry.ok e => if denylisted e.path then false else true

/-- The task spawned for an entry, if any. -/
def spawnTask (md5hex : List Nat → String) : Entry → Option TaskOutcome
  | Entry.err => none
  | Entry.ok e =>
      if denylisted e.path then none
      else some (digest_and_insert_path md5hex e.insertOk e.isDir e.name e.path e.src)

/-- `walk_filesystem_hashing`: spawn a task per eligible entry, then
`join_all` the handles.  The value is the list of settled task outcomes. -/
def walk_filesystem_hashing (md5hex : List Nat → String) (entries : List Entry) :
    List TaskOutcome :=
  entries.filterMap (spawnTask md5hex)

/-- Length of the `handles` vector at the `join_all` call: the source pushes
one handle per spawned task before awaiting any of them, so every one of
these tasks is in flight at that point. -/
def spawnedHandles (entries : List Entry) : Nat :=
  (entries.filter spawnDecision).length

/-- Records actually persisted by a list of settled tasks: an INSERT row is
written exactly when some attempt of `insert_file_record` succeeded. -/
def insertedRecords (outs : List TaskOutcome) : List FileRecord :=
  outs.filterMap fun o =>
    match o with
    | TaskOutcome.insertedOk r _ => some r
    | _ => none

/-- What the `walk` branch of `real_main` can report.  The `scanFailed`
constructor expresses the outcome the spec demands for an unwalkable root;
the function below, following the source, never produces it, because
`walk_filesystem_hashing` skips `Err` entries and cannot fail. -/
inductive Report where
  | completed (count : Nat)
  | scanFailed
deriving DecidableEq

/-- The `walk` branch of `real_main`: create the (idempotent) schema, run the
walk to completion, then report `select count(*) from file_record` — the
prior rows of the store plus the rows inserted by this scan. -/
def real_main_walk (md5hex : List Nat → String) (entries : List Entry)
    (priorStore : List FileRecord) : Report :=
  Report.completed
    (priorStore ++ insertedRecords (walk_filesystem_hashing md5hex entries)).length

/-- Event of the store-write trace of a scan: worker `w`'s `conn.execute`
INSERT statement starts, or it returns.  Worker `w` is the `tokio::spawn`ed
task of the `w`-th eligible file. -/
inductive WEv where
  | beginInsert (w : Nat)
  | endInsert (w : Nat)
deriving DecidableEq

/-- The worker a trace event belongs to. -/
def evWorker : WEv → Nat
  | WEv.beginInsert w => w
  | WEv.endInsert w => w

/-- Projection of a trace onto the events of worker `w`. -/
def workerEvents (w : Nat) (t : List WEv) : List WEv :=
  t.filter fun e => evWorker e == w

/-- Admissible write schedules of `n` concurrent tasks each performing one
successful INSERT.  `insert_file_record` opens its own `Connection` per call
and acquires no lock shared with the other tasks, so the only constraint the
program imposes on the runtime's scheduling is each task's program order:
its INSERT begins, then ends.  A trace is valid iff each worker `w < n`
contributes exactly the events `[beginInsert w, endInsert w]` in that order
and no other events occur.  A mutual-exclusion discipline would additionally
rule out the interleaved traces; nothing in the source does so. -/
def validTraceB (n : Nat) (t : List WEv) : Bool :=
  ((List.range n).all fun w =>
      workerEvents w t == [WEv.beginInsert w, WEv.endInsert w]) &&
    t.all fun e => decide (evWorker e < n)

/-- Whether two distinct workers' insert operations overlap in time in `t`:
each begins before the other ends. -/
def overlapsB (n : Nat) (t : List WEv) : Bool :=
  (List.range n).any fun w₁ => (List.range n).any fun w₂ =>
    decide (w₁ ≠ w₂) &&
    decide (t.indexOf (WEv.beginInsert w₂) < t.indexOf (WEv.endInsert w₁)) &&
    decide (t.indexOf (WEv.beginInsert w₁) < t.indexOf (WEv.endInsert w₂))

/-- Modelled from the spec: a `DuplicateSet` — a group of records sharing one
hash value.  The repository's source contains no Duplicate Resolver (no
`group_by_hash_having_count_gte` query is implemented in `src/main.rs`), so
the resolver below is built from the words of the spec's §4.6 contract. -/
structure DuplicateSet where
  hash : String
  members : List FileRecord
deriving DecidableEq

/-- Modelled from the spec: the full set of persisted records sharing hash `h`. -/
def recordsWithHash (records : List FileRecord) (h : String) : List FileRecord :=
  records.filter fun r => r.hash == h

/-- Modelled from the spec: the output order of the resolver — descending
set size, ties broken by ascending hash value. -/
def dupOrder (s₁ s₂ : DuplicateSet) : Prop :=
  s₂.members.length < s₁.members.length ∨
    (s₁.members.length = s₂.members.length ∧ s₁.hash ≤ s₂.hash)

instance dupOrderDecidable : DecidableRel dupOrder := fun s₁ s₂ => by
  unfold dupOrder
  infer_instance

instance dupOrderTotal : IsTotal DuplicateSet dupOrder where
  total s₁ s₂ := by
    unfold dupOrder
    rcases Nat.lt_trichotomy s₁.members.length s₂.members.length with h | h | h
    · exact Or.inr (Or.inl h)
    · rcases le_total s₁.hash s₂.hash with hle | hle
      · exact Or.inl (Or.inr ⟨h, hle⟩)
      · exact Or.inr (Or.inr ⟨h.symm, hle⟩)
    · exact Or.inl (Or.inl h)

instance dupOrderTrans : IsTrans DuplicateSet dupOrder where
  trans a b c hab hbc := by
    unfold dupOrder at hab hbc ⊢
    rcases hab with h₁ | ⟨e₁, l₁⟩ <;> rcases hbc with h₂ | ⟨e₂, l₂⟩
    · exact Or.inl (by omega)
    · exact Or.inl (by omega)
    · exact Or.inl (by omega)
    · exact Or.inr ⟨by omega, le_trans l₁ l₂⟩

/-- Modelled from the spec: the Duplicate Resolver.  Query the store for the
hash groupings with count ≥ 2, fetch the full record set of each qualifying
hash, and return the collection ordered by descending set size with ties
broken by ascending hash. -/
def query_duplicates (records : List FileRecord) : List DuplicateSet :=
  List.insertionSort dupOrder
    (((records.map fun r => r.hash).dedup).filterMap fun h =>
      if 2 ≤ (recordsWithHash records h).length then
        some ⟨h, recordsWithHash records h⟩
      else none)

theorem md5Loop_chunkReads_aux (k n : Nat) :
    ∀ content : List Nat, content.length ≤ n →
      ∀ fed : List Nat, md5Loop (k+1) (chunkReads k content) fed = fed ++ content := by
  induction n with
  | zero =>
    intro content hlen fed
    have hc : content = [] := List.length_eq_zero.mp (Nat.le_zero.mp hlen)
    subst hc
    simp [chunkReads, md5Loop]
  | succ n ih =>
    intro content hlen fed
    match content with
    | [] => simp [chunkReads, md5Loop]
    | b :: rest =>
      rw [chunkReads, md5Loop]
      have hpos : ((b :: rest).take (k+1)).length ≠ 0 := by
        simp [List.length_take]
      rw [if_neg hpos]
      by_cases hshort : rest.length + 1 ≤ k
      · have htake : (b :: rest).take (k+1) = b :: rest :=
          List.take_of_length_le (by simp; omega)
        have hlt : ((b :: rest).take (k+1)).length < k + 1 := by
          rw [htake]; simp; omega
        rw [if_pos hlt, htake]
      · have hlenc : ((b :: rest).take (k+1)).length = k + 1 := by
          simp [List.length_take]; omega
        rw [if_neg (by omega : ¬ ((b :: rest).take (k+1)).length < k + 1)]
        have hdrop : ((b :: rest).drop (k+1)).length ≤ n := by
          rw [List.length_drop, List.length_cons]
          rw [List.length_cons] at hlen
          omega
        rw [ih ((b :: rest).drop (k+1)) hdrop (fed ++ (b :: rest).take (k+1))]
        rw [List.append_assoc, List.take_append_drop]

theorem md5Loop_chunkReads (k : Nat) (content fed : List Nat) :
    md5Loop (k+1) (chunkReads k content) fed = fed ++ content :=
  md5Loop_chunkReads_aux k content.length content (Nat.le_refl _) fed

/-- C1: for every byte content, digesting in a single chunk and digesting
split across arbitrarily many chunk boundaries yields the identical hex
fingerprint: for every positive chunk size `k+1`, streaming `content` through
the loop of `calculate_digest` digests exactly the full content, so the
resulting fingerprint `md5hex content` is a pure function of the content and
in particular agrees between any two chunk sizes `k₁+1` and `k₂+1` (taking
`k₁ ≥ content.length` gives the single-chunk reading). -/
theorem digest_chunk_size_independent (md5hex : List Nat → String) (k₁ k₂ : Nat)
    (content : List Nat) :
    calculate_digest md5hex (k₁+1) (FileSource.opened (chunkReads k₁ content)) =
      some (md5hex content) ∧
    calculate_digest md5hex (k₁+1) (FileSource.opened (chunkReads k₁ content)) =
      calculate_digest md5hex (k₂+1) (FileSource.opened (chunkReads k₂ content)) := by
  constructor
  · simp [calculate_digest, md5Loop_chunkReads]
  · simp [calculate_digest, md5Loop_chunkReads]

theorem attemptCount_insert_le (attemptOk : Nat → Bool) (record : FileRecord) :
    ∀ n idx, attemptCount (insert_file_record attemptOk record n idx) ≤ idx + n + 1 := by
  intro n
  induction n with
  | zero =>
    intro idx
    rw [insert_file_record]
    by_cases h : attemptOk idx
    · simp [h, attemptCount]
    · simp [h, attemptCount]
  | succ n ih =>
    intro idx
    rw [insert_file_record]
    by_cases h : attemptOk idx
    · rw [if_pos h]
      simp only [attemptCount]
      omega
    · simp only [h, if_false, Bool.false_eq_true]
      have := ih (idx + 1)
      omega

theorem insert_file_record_shape (attemptOk : Nat → Bool) (record : FileRecord) :
    ∀ n idx, (∃ m, insert_file_record attemptOk record n idx = InsertResult.ok m) ∨
      (∃ m, insert_file_record attemptOk record n idx = InsertResult.panicked record m) := by
  intro n
  induction n with
  | zero =>
    intro idx
    rw [insert_file_record]
    by_cases h : attemptOk idx
    · exact Or.inl ⟨idx + 1, by simp [h]⟩
    · exact Or.inr ⟨idx + 1, by simp [h]⟩
  | succ n ih =>
    intro idx
    rw [insert_file_record]
    by_cases h : attemptOk idx
    · exact Or.inl ⟨idx + 1, by simp [h]⟩
    · simpa [h] using ih (idx + 1)

/-- C10: for every record and every initial retry budget `r`,
`insert_file_record` terminates (it is a total function of this development)
after at most `r + 1` INSERT attempts, and each failed attempt recurses with
the remaining-retries counter decreased by exactly one. -/
theorem insert_file_record_bounded_attempts (attemptOk : Nat → Bool)
    (record : FileRecord) (r : Nat) :
    attemptCount (insert_file_record attemptOk record r 0) ≤ r + 1 ∧
    (∀ m idx, attemptOk idx = false →
      insert_file_record attemptOk record (m + 1) idx =
        insert_file_record attemptOk record m (idx + 1)) := by
  constructor
  · simpa using attemptCount_insert_le attemptOk record r 0
  · intro m idx h
    rw [insert_file_record]
    simp [h]

/-- Witness for C10 at a concrete behavior: the third attempt succeeds. -/
theorem insert_file_record_bounded_attempts_witness :
    attemptCount
        (insert_file_record (fun i => decide (i = 2)) ⟨"a", "/a", "d"⟩ 5 0) ≤ 5 + 1 ∧
    insert_file_record (fun i => decide (i = 2)) ⟨"a", "/a", "d"⟩ (4 + 1) 0 =
      insert_file_record (fun i => decide (i = 2)) ⟨"a", "/a", "d"⟩ 4 (0 + 1) :=
  ⟨(insert_file_record_bounded_attempts (fun i => decide (i = 2)) ⟨"a", "/a", "d"⟩ 5).1,
   (insert_file_record_bounded_attempts (fun i => decide (i = 2)) ⟨"a", "/a", "d"⟩ 5).2
      4 0 (by decide)⟩

/-- C4 counterexample: with every attempt failing and retry budget 2, the
exhausted call does not return an explicit failure value to its caller — it
panics (the Rust source calls `panic(...)`, modelled by the `panicked`
constructor, which in the running program unwinds the spawned task).  The
second conjunct shows the failure is also invisible to the orchestrator: a
scan whose single file's INSERT always fails ends with a bare record count
and no failed-record information. -/
theorem insert_exhaustion_not_surfaced_cex :
    insert_file_record (fun _ => false) ⟨"a", "/a", "d"⟩ 2 0 =
      InsertResult.panicked ⟨"a", "/a", "d"⟩ 3 ∧
    real_main_walk (fun _ => "d")
        [Entry.ok ⟨"/a", false, "a", FileSource.opened [], fun _ => false⟩] [] =
      Report.completed 0 := by
  decide

/-- C4 amended: when all attempts are exhausted, `insert_file_record` does
not surface an explicit failure outcome to the caller; it panics, naming the
record, after exactly `r + 1` failed attempts.  The tokio runtime confines
the panic to the worker task (so the process does not abort), and the
orchestrator's summary carries no count of failed insertions. -/
theorem insert_exhaustion_panics (record : FileRecord) (r : Nat) : ∀ idx,
    insert_file_record (fun _ => false) record r idx =
      InsertResult.panicked record (idx + r + 1) := by
  induction r with
  | zero =>
    intro idx
    rw [insert_file_record]
    simp
  | succ n ih =>
    intro idx
    rw [insert_file_record]
    simp only [Bool.false_eq_true, if_false]
    rw [ih (idx + 1)]
    congr 1
    omega

/-- C2 counterexample: a read error occurring mid-stream (the file opened
successfully, then its first chunked read failed) does not abandon the
file's record.  The loop's `None => break md5.finalize()` finalizes the
digest of the bytes read so far — here the empty prefix — and
`calculate_digest` returns it as `Some`, so the caller builds the record and
persists it: the partially computed digest is stored, contradicting the
claim that it never is. -/
theorem read_error_record_persisted_cex :
    calculate_digest (fun _ => "d") chunk_size (FileSource.opened [ReadOutcome.err]) =
      some "d" ∧
    digest_and_insert_path (fun _ => "d") (fun _ => true) false "a" "/a"
        (FileSource.opened [ReadOutcome.err]) =
      TaskOutcome.insertedOk ⟨"a", "/a", "d"⟩ 1 ∧
    insertedRecords
        [digest_and_insert_path (fun _ => "d") (fun _ => true) false "a" "/a"
          (FileSource.opened [ReadOutcome.err])] =
      [⟨"a", "/a", "d"⟩] := by
  decide

/-- C2 amended: on a read error mid-stream, the hashing loop finalizes the
digest of the bytes read so far and returns it as `Some`; the caller builds
the record with this truncated digest and persists it (here the INSERT
succeeds at the first attempt), and the scan continues around the affected
file.  The record is not abandoned. -/
theorem read_error_truncated_digest_persisted (md5hex : List Nat → String)
    (attemptOk : Nat → Bool) (nm pth : String) (c : List Nat)
    (pre post : List Entry) (hc : c.length = chunk_size)
    (ha : attemptOk 0 = true) (hd : denylisted pth = false) :
    calculate_digest md5hex chunk_size
        (FileSource.opened [ReadOutcome.ok c, ReadOutcome.err]) =
      some (md5hex c) ∧
    digest_and_insert_path md5hex attemptOk false nm pth
        (FileSource.opened [ReadOutcome.ok c, ReadOutcome.err]) =
      TaskOutcome.insertedOk ⟨nm, pth, md5hex c⟩ 1 ∧
    walk_filesystem_hashing md5hex
        (pre ++
          [Entry.ok ⟨pth, false, nm,
            FileSource.opened [ReadOutcome.ok c, ReadOutcome.err], attemptOk⟩] ++
          post) =
      walk_filesystem_hashing md5hex pre ++
        [TaskOutcome.insertedOk ⟨nm, pth, md5hex c⟩ 1] ++
        walk_filesystem_hashing md5hex post := by
  have hloop : md5Loop chunk_size [ReadOutcome.ok c, ReadOutcome.err] [] = c := by
    rw [md5Loop]
    rw [if_neg (by rw [hc]; simp [chunk_size])]
    rw [if_neg (by rw [hc]; simp)]
    rw [md5Loop]
    simp
  have hdig : calculate_digest md5hex chunk_size
      (FileSource.opened [ReadOutcome.ok c, ReadOutcome.err]) = some (md5hex c) := by
    rw [calculate_digest, hloop]
  have hins : insert_file_record attemptOk ⟨nm, pth, md5hex c⟩ 200 0 =
      InsertResult.ok 1 := by
    rw [insert_file_record]
    simp [ha]
  have htask : digest_and_insert_path md5hex attemptOk false nm pth
      (FileSource.opened [ReadOutcome.ok c, ReadOutcome.err]) =
      TaskOutcome.insertedOk ⟨nm, pth, md5hex c⟩ 1 := by
    simp [digest_and_insert_path, hdig, hins]
  refine ⟨hdig, htask, ?_⟩
  rw [walk_filesystem_hashing, List.filterMap_append, List.filterMap_append]
  rw [walk_filesystem_hashing, walk_filesystem_hashing]
  congr 1
  congr 1
  rw [List.filterMap]
  rw [spawnTask]
  simp only [hd, if_false, Bool.false_eq_true]
  rw [htask]
  rfl

/-- Witness for C2's amended claim: a 16384-byte first chunk is read in
full, the second read errors, and the record with the digest of only those
16384 bytes is persisted. -/
theorem read_error_truncated_digest_persisted_witness :
    calculate_digest (fun _ => "d") chunk_size
        (FileSource.opened [ReadOutcome.ok (List.replicate 16384 3), ReadOutcome.err]) =
      some "d" ∧
    digest_and_insert_path (fun _ => "d") (fun _ => true) false "a" "/a"
        (FileSource.opened [ReadOutcome.ok (List.replicate 16384 3), ReadOutcome.err]) =
      TaskOutcome.insertedOk ⟨"a", "/a", "d"⟩ 1 ∧
    walk_filesystem_hashing (fun _ => "d")
        ([] ++
          [Entry.ok ⟨"/a", false, "a",
            FileSource.opened [ReadOutcome.ok (List.replicate 16384 3), ReadOutcome.err],
            fun _ => true⟩] ++
          []) =
      walk_filesystem_hashing (fun _ => "d") [] ++
        [TaskOutcome.insertedOk ⟨"a", "/a", "d"⟩ 1] ++
        walk_filesystem_hashing (fun _ => "d") [] :=
  read_error_truncated_digest_persisted (fun _ => "d") (fun _ => true) "a" "/a"
    (List.replicate 16384 3) [] [] (by rw [List.length_replicate, chunk_size]) rfl
    (by decide)

/-- C3: a file that cannot be opened yields no digest (`None`); the spawned
task creates and persists no record for it (its `.unwrap()` panics the task,
which the tokio runtime contains), and the scan as a whole continues: the
surrounding entries are processed exactly as they would be without the
unreadable file, and the set of persisted records is unchanged by it. -/
theorem open_failure_per_file_skip (md5hex : List Nat → String)
    (attemptOk : Nat → Bool) (nm pth : String) (pre post : List Entry)
    (hd : denylisted pth = false) :
    calculate_digest md5hex chunk_size FileSource.openFailure = none ∧
    digest_and_insert_path md5hex attemptOk false nm pth FileSource.openFailure =
      TaskOutcome.panickedUnwrap ∧
    walk_filesystem_hashing md5hex
        (pre ++ [Entry.ok ⟨pth, false, nm, FileSource.openFailure, attemptOk⟩] ++ post) =
      walk_filesystem_hashing md5hex pre ++ [TaskOutcome.panickedUnwrap] ++
        walk_filesystem_hashing md5hex post ∧
    insertedRecords
        (walk_filesystem_hashing md5hex
          (pre ++ [Entry.ok ⟨pth, false, nm, FileSource.openFailure, attemptOk⟩] ++ post)) =
      insertedRecords (walk_filesystem_hashing md5hex pre) ++
        insertedRecords (walk_filesystem_hashing md5hex post) := by
  have htask : digest_and_insert_path md5hex attemptOk false nm pth
      FileSource.openFailure = TaskOutcome.panickedUnwrap := by
    simp [digest_and_insert_path, calculate_digest]
  have hwalk : walk_filesystem_hashing md5hex
      (pre ++ [Entry.ok ⟨pth, false, nm, FileSource.openFailure, attemptOk⟩] ++ post) =
      walk_filesystem_hashing md5hex pre ++ [TaskOutcome.panickedUnwrap] ++
        walk_filesystem_hashing md5hex post := by
    rw [walk_filesystem_hashing, List.filterMap_append, List.filterMap_append]
    rw [walk_filesystem_hashing, walk_filesystem_hashing]
    congr 1
    congr 1
    rw [List.filterMap]
    rw [spawnTask]
    simp only [hd, if_false, Bool.false_eq_true]
    rw [htask]
    rfl
  refine ⟨rfl, htask, hwalk, ?_⟩
  rw [hwalk]
  rw [insertedRecords, insertedRecords, insertedRecords]
  rw [List.filterMap_append, List.filterMap_append]
  simp

/-- Witness for C3 at a concrete unreadable file between two healthy files. -/
theorem open_failure_per_file_skip_witness :
    calculate_digest (fun _ => "d") chunk_size FileSource.openFailure = none ∧
    digest_and_insert_path (fun _ => "d") (fun _ => true) false "a" "/a"
        FileSource.openFailure = TaskOutcome.panickedUnwrap ∧
    walk_filesystem_hashing (fun _ => "d")
        ([Entry.ok ⟨"/b", false, "b", FileSource.opened [], fun _ => true⟩] ++
          [Entry.ok ⟨"/a", false, "a", FileSource.openFailure, fun _ => true⟩] ++
          [Entry.ok ⟨"/c", false, "c", FileSource.opened [], fun _ => true⟩]) =
      walk_filesystem_hashing (fun _ => "d")
          [Entry.ok ⟨"/b", false, "b", FileSource.opened [], fun _ => true⟩] ++
        [TaskOutcome.panickedUnwrap] ++
        walk_filesystem_hashing (fun _ => "d")
          [Entry.ok ⟨"/c", false, "c", FileSource.opened [], fun _ => true⟩] ∧
    insertedRecords
        (walk_filesystem_hashing (fun _ => "d")
          ([Entry.ok ⟨"/b", false, "b", FileSource.opened [], fun _ => true⟩] ++
            [Entry.ok ⟨"/a", false, "a", FileSource.openFailure, fun _ => true⟩] ++
            [Entry.ok ⟨"/c", false, "c", FileSource.opened [], fun _ => true⟩])) =
      insertedRecords
          (walk_filesystem_hashing (fun _ => "d")
            [Entry.ok ⟨"/b", false, "b", FileSource.opened [], fun _ => true⟩]) ++
        insertedRecords
          (walk_filesystem_hashing (fun _ => "d")
            [Entry.ok ⟨"/c", false, "c", FileSource.opened [], fun _ => true⟩]) :=
  open_failure_per_file_skip (fun _ => "d") (fun _ => true) "a" "/a"
    [Entry.ok ⟨"/b", false, "b", FileSource.opened [], fun _ => true⟩]
    [Entry.ok ⟨"/c", false, "c", FileSource.opened [], fun _ => true⟩]
    (by decide)

theorem spawnedHandles_replicate (n : Nat) (e : Entry) (he : spawnDecision e = true) :
    spawnedHandles (List.replicate n e) = n := by
  induction n with
  | zero => simp [spawnedHandles]
  | succ n ih =>
    rw [List.replicate_succ]
    rw [spawnedHandles, List.filter_cons]
    rw [he]
    rw [spawnedHandles] at ih
    simp [ih]

/-- C5 counterexample: the orchestrator spawns a task per eligible file and
pushes its handle before awaiting any of them, so on a tree of 401 eligible
files there are 401 in-flight per-file operations at the `join_all` point —
exceeding 400, the only fixed pool-size constant the program configures
(`worker_threads(400)` / `max_blocking_threads(400)` cap OS threads, not
spawned tasks). -/
theorem unbounded_inflight_cex :
    spawnedHandles
        (List.replicate 401
          (Entry.ok ⟨"/a", false, "a", FileSource.opened [], fun _ => true⟩)) = 401 ∧
    400 < 401 :=
  ⟨spawnedHandles_replicate 401 _ (by decide), by omega⟩

/-- C5 amended: the number of in-flight concurrent per-file operations is
not bounded by any fixed pool size: for every candidate bound `P` there is
an input tree (here `P + 1` eligible files) for which the walk has spawned
`P + 1` concurrent tasks, all in flight when `join_all` begins. -/
theorem inflight_tasks_exceed_any_bound (P : Nat) :
    P < spawnedHandles
        (List.replicate (P + 1)
          (Entry.ok ⟨"/a", false, "a", FileSource.opened [], fun _ => true⟩)) := by
  rw [spawnedHandles_replicate (P + 1) _ (by decide)]
  omega

/-- C6 counterexample: the trace in which worker 1's INSERT begins after
worker 0's INSERT begins but before it ends is a valid schedule of the
program (each worker respects its own program order, and nothing in
`insert_file_record` — which opens its own connection and takes no lock —
forbids the interleaving), yet the two insert operations overlap in time.
So it is not the case that no two insert operations against the store
overlap. -/
theorem overlapping_inserts_valid_cex :
    validTraceB 2
        [WEv.beginInsert 0, WEv.beginInsert 1, WEv.endInsert 0, WEv.endInsert 1] = true ∧
    overlapsB 2
        [WEv.beginInsert 0, WEv.beginInsert 1, WEv.endInsert 0, WEv.endInsert 1] = true := by
  decide

/-- C6 amended: store writes pass through no Write Coordinator and no mutual
exclusion is enforced: each call of `insert_file_record` opens its own
connection, and both serialized and overlapping schedules of two concurrent
workers' INSERTs are admissible program behaviors. -/
theorem no_write_mutual_exclusion :
    validTraceB 2
        [WEv.beginInsert 0, WEv.endInsert 0, WEv.beginInsert 1, WEv.endInsert 1] = true ∧
    overlapsB 2
        [WEv.beginInsert 0, WEv.endInsert 0, WEv.beginInsert 1, WEv.endInsert 1] = false ∧
    validTraceB 2
        [WEv.beginInsert 1, WEv.beginInsert 0, WEv.endInsert 1, WEv.endInsert 0] = true ∧
    overlapsB 2
        [WEv.beginInsert 1, WEv.beginInsert 0, WEv.endInsert 1, WEv.endInsert 0] = true := by
  decide

/-- C7: an entry whose path contains `.git`, `/target/` or `.idea/` as a
substring is never spawned: it is absent from the walk's task list, hence
never hashed and never persisted.  An `Ok` entry for a regular file whose
path contains no denylisted substring is spawned, and — whenever its file
opens — its task hashes the streamed bytes and submits the record with that
digest for insertion (succeeding or exhausting retries, but submitted either
way). -/
theorem path_filter_decision (md5hex : List Nat → String) (e : WalkEntry)
    (pre post : List Entry) :
    (denylisted e.path = true →
      spawnDecision (Entry.ok e) = false ∧
      walk_filesystem_hashing md5hex (pre ++ [Entry.ok e] ++ post) =
        walk_filesystem_hashing md5hex pre ++ walk_filesystem_hashing md5hex post) ∧
    (denylisted e.path = false → e.isDir = false →
      spawnDecision (Entry.ok e) = true ∧
      walk_filesystem_hashing md5hex (pre ++ [Entry.ok e] ++ post) =
        walk_filesystem_hashing md5hex pre ++
          [digest_and_insert_path md5hex e.insertOk e.isDir e.name e.path e.src] ++
          walk_filesystem_hashing md5hex post ∧
      (∀ reads, e.src = FileSource.opened reads →
        ∃ m,
          digest_and_insert_path md5hex e.insertOk e.isDir e.name e.path e.src =
            TaskOutcome.insertedOk
              ⟨e.name, e.path, md5hex (md5Loop chunk_size reads [])⟩ m ∨
          digest_and_insert_path md5hex e.insertOk e.isDir e.name e.path e.src =
            TaskOutcome.panickedInsert
              ⟨e.name, e.path, md5hex (md5Loop chunk_size reads [])⟩)) := by
  constructor
  · intro h
    constructor
    · simp [spawnDecision, h]
    · simp [walk_filesystem_hashing, List.filterMap_append, spawnTask, h]
  · intro h hdir
    refine ⟨by simp [spawnDecision, h], ?_, ?_⟩
    · simp [walk_filesystem_hashing, List.filterMap_append, spawnTask, h]
    · intro reads hsrc
      rcases insert_file_record_shape e.insertOk
          ⟨e.name, e.path, md5hex (md5Loop chunk_size reads [])⟩ 200 0 with
        ⟨m, hm⟩ | ⟨m, hm⟩
      · exact ⟨m, Or.inl (by
          simp [digest_and_insert_path, hsrc, hdir, calculate_digest, hm])⟩
      · exact ⟨m, Or.inr (by
          simp [digest_and_insert_path, hsrc, hdir, calculate_digest, hm])⟩

/-- Witness for C7: a denylisted path is skipped by the walk; a clean
regular file is spawned, hashed and submitted. -/
theorem path_filter_decision_witness :
    (spawnDecision
        (Entry.ok ⟨"/r/.git/c", false, "c", FileSource.opened [], fun _ => true⟩) = false ∧
      walk_filesystem_hashing (fun _ => "d")
          ([] ++
            [Entry.ok ⟨"/r/.git/c", false, "c", FileSource.opened [], fun _ => true⟩] ++
            []) =
        walk_filesystem_hashing (fun _ => "d") [] ++
          walk_filesystem_hashing (fun _ => "d") []) ∧
    (spawnDecision
        (Entry.ok ⟨"/r/a.txt", false, "a", FileSource.opened [], fun _ => true⟩) = true ∧
      walk_filesystem_hashing (fun _ => "d")
          ([] ++
            [Entry.ok ⟨"/r/a.txt", false, "a", FileSource.opened [], fun _ => true⟩] ++
            []) =
        walk_filesystem_hashing (fun _ => "d") [] ++
          [digest_and_insert_path (fun _ => "d") (fun _ => true) false "a" "/r/a.txt"
            (FileSource.opened [])] ++
          walk_filesystem_hashing (fun _ => "d") [] ∧
      (∀ reads, FileSource.opened [] = FileSource.opened reads →
        ∃ m,
          digest_and_insert_path (fun _ => "d") (fun _ => true) false "a" "/r/a.txt"
              (FileSource.opened []) =
            TaskOutcome.insertedOk
              ⟨"a", "/r/a.txt", (fun _ => "d") (md5Loop chunk_size reads [])⟩ m ∨
          digest_and_insert_path (fun _ => "d") (fun _ => true) false "a" "/r/a.txt"
              (FileSource.opened []) =
            TaskOutcome.panickedInsert
              ⟨"a", "/r/a.txt", (fun _ => "d") (md5Loop chunk_size reads [])⟩)) :=
  ⟨(path_filter_decision (fun _ => "d")
      ⟨"/r/.git/c", false, "c", FileSource.opened [], fun _ => true⟩ [] []).1 (by decide),
   (path_filter_decision (fun _ => "d")
      ⟨"/r/a.txt", false, "a", FileSource.opened [], fun _ => true⟩ [] []).2
      (by decide) rfl⟩

/-- C8 counterexample: when the root itself cannot be walked, `WalkDir`
yields exactly one `Err` entry; the walk loop logs and skips it, the scan
completes normally, and `real_main` reports the store's record count (0 on a
fresh store) — it does not report a scan-level failure. -/
theorem bad_root_completes_normally_cex :
    real_main_walk (fun _ => "d") [Entry.err] [] = Report.completed 0 ∧
    real_main_walk (fun _ => "d") [Entry.err] [] ≠ Report.scanFailed := by
  decide

/-- C8 amended: on an unwalkable root the scan does not fail as a whole: the
single error entry is skipped, no task is spawned, and the orchestrator
completes normally, reporting the pre-existing record count of the store. -/
theorem bad_root_reports_count (md5hex : List Nat → String)
    (prior : List FileRecord) :
    real_main_walk md5hex [Entry.err] prior = Report.completed prior.length := by
  simp [real_main_walk, walk_filesystem_hashing, spawnTask, insertedRecords]

/-- C9: the resolver's output consists exactly of the hash groups of
cardinality ≥ 2 — every returned set is the full record set of its hash and
has at least two members, and every hash shared by at least two records
contributes its full record set — ordered by descending set size with ties
broken by ascending hash; a record whose hash is unique appears in no
returned set. -/
theorem query_duplicates_correct (records : List FileRecord) :
    (∀ s ∈ query_duplicates records,
      s.members = recordsWithHash records s.hash ∧ 2 ≤ s.members.length) ∧
    (∀ h : String, 2 ≤ (recordsWithHash records h).length →
      (⟨h, recordsWithHash records h⟩ : DuplicateSet) ∈ query_duplicates records) ∧
    List.Sorted dupOrder (query_duplicates records) ∧
    (∀ r ∈ records, (recordsWithHash records r.hash).length = 1 →
      ∀ s ∈ query_duplicates records, r ∉ s.members) := by
  have hmem : ∀ s : DuplicateSet, s ∈ query_duplicates records ↔
      s ∈ ((records.map fun r => r.hash).dedup).filterMap (fun h =>
        if 2 ≤ (recordsWithHash records h).length then
          some ⟨h, recordsWithHash records h⟩
        else none) := by
    intro s
    unfold query_duplicates
    exact (List.perm_insertionSort dupOrder _).mem_iff
  have hpart1 : ∀ s ∈ query_duplicates records,
      s.members = recordsWithHash records s.hash ∧ 2 ≤ s.members.length := by
    intro s hs
    rw [hmem] at hs
    rcases List.mem_filterMap.mp hs with ⟨h, hh, hf⟩
    by_cases hlen : 2 ≤ (recordsWithHash records h).length
    · rw [if_pos hlen] at hf
      cases Option.some.inj hf
      exact ⟨rfl, hlen⟩
    · rw [if_neg hlen] at hf
      exact absurd hf (by simp)
  refine ⟨hpart1, ?_, ?_, ?_⟩
  · intro h hlen
    have hne : recordsWithHash records h ≠ [] := by
      intro hnil
      rw [hnil] at hlen
      simp at hlen
    rcases List.exists_mem_of_ne_nil _ hne with ⟨r, hr⟩
    rw [recordsWithHash] at hr
    have hrr := List.mem_filter.mp hr
    have hhash : r.hash = h := by simpa using hrr.2
    have hmap : h ∈ records.map fun r => r.hash :=
      List.mem_map.mpr ⟨r, hrr.1, hhash⟩
    rw [hmem, List.mem_filterMap]
    exact ⟨h, List.mem_dedup.mpr hmap, by rw [if_pos hlen]⟩
  · unfold query_duplicates
    exact List.sorted_insertionSort dupOrder _
  · intro r hr hu s hs hrm
    rcases hpart1 s hs with ⟨hsm, hslen⟩
    rw [hsm] at hrm hslen
    rw [recordsWithHash] at hrm
    have hrh : r.hash = s.hash := by simpa using (List.mem_filter.mp hrm).2
    rw [hrh] at hu
    omega

/-- Sample store for the C9 witness: two records share hash "aa", one record
has the unique hash "bb". -/
def sampleRecords : List FileRecord :=
  [⟨"a", "/r/a", "aa"⟩, ⟨"b", "/r/b", "aa"⟩, ⟨"c", "/r/c", "bb"⟩]

/-- Witness for C9: on `sampleRecords`, the full "aa" group is returned, it
is the full record set of its hash with at least two members, and the
unique-hash record `c` appears in no returned set. -/
theorem query_duplicates_correct_witness :
    ((⟨"aa", recordsWithHash sampleRecords "aa"⟩ : DuplicateSet) ∈
      query_duplicates sampleRecords) ∧
    ((⟨"aa", recordsWithHash sampleRecords "aa"⟩ : DuplicateSet).members =
        recordsWithHash sampleRecords
          (⟨"aa", recordsWithHash sampleRecords "aa"⟩ : DuplicateSet).hash ∧
      2 ≤ (⟨"aa", recordsWithHash sampleRecords "aa"⟩ : DuplicateSet).members.length) ∧
    (∀ s ∈ query_duplicates sampleRecords,
      (⟨"c", "/r/c", "bb"⟩ : FileRecord) ∉ s.members) :=
  ⟨(query_duplicates_correct sampleRecords).2.1 "aa" (by decide),
   (query_duplicates_correct sampleRecords).1
     ⟨"aa", recordsWithHash sampleRecords "aa"⟩
     ((query_duplicates_correct sampleRecords).2.1 "aa" (by decide)),
   (query_duplicates_correct sampleRecords).2.2.2 ⟨"c", "/r/c", "bb"⟩ (by decide)
     (by decide)⟩
